import Mathlib

/-!
Verification of the device/bus emulation spec against the sampled drivers.

The repository holds driver code (crimfght.cpp, the hp64k driver, the
konmedal68k driver, ...) that calls into the emulation core (address-map
dispatch, timers, interrupt lines, address_map_bank devices).  The core
itself is not among the sampled sources, so the core mechanisms are
modelled from the spec; the driver handlers and state machines are
translated from the sampled source files.
-/

/-! ## Address space model -/

/-- Modelled from the spec: an installed address range `(start, end,
mirror-mask, handler-reference)` together with its install sequence
number.  The core's range structure is not in the sampled sources. -/
structure AddressRange (H : Type) where
  start : Nat
  stop : Nat
  mirror : Nat
  handler : H
  seq : Nat
deriving DecidableEq, Repr

/-- Address mask of the modelled 16-bit buses (both CPUs of crimfght have
16-bit address buses). -/
def ADDR_MASK : Nat := 0xffff

/-- Modelled from the spec: a range with mirror bits `M` responds at every
address obtained by OR-ing a subset of `M` into an address of
`[start, end]`; the match is computed by masking off the mirror bits
(bitmask test, not enumeration). -/
def rangeMatches {H : Type} (r : AddressRange H) (a : Nat) : Bool :=
  let base := a &&& (ADDR_MASK ^^^ r.mirror)
  decide (r.start ≤ base) && decide (base ≤ r.stop)

/-- Modelled from the spec: resolution picks, among the installed ranges
covering the address, the one with the highest install sequence number
(the list is kept in install order, head installed first; later installs
shadow earlier ones). -/
def resolve {H : Type} : List (AddressRange H) → Nat → Option (AddressRange H)
  | [], _ => none
  | r :: rest, a =>
    match resolve rest a with
    | some x => some x
    | none => if rangeMatches r a then some r else none

/-- A space is well-sequenced when install sequence numbers strictly
increase along the install order. -/
@[reducible]
def SeqOrdered {H : Type} (rs : List (AddressRange H)) : Prop :=
  List.Pairwise (fun x y => x.seq < y.seq) rs

/-- Handler references appearing in the crimfght driver's address maps
(crimfght.cpp). -/
inductive Handler where
  | bank0000_amap8
  | mainram
  | k052109_051960
  | portSYSTEM
  | portP1
  | portP2
  | portDSW2
  | portDSW3
  | portP3
  | portP4
  | portDSW1
  | watchdog_coin
  | sound_latch_w
  | rombank_r
  | mainrom
  | sndrom
  | sndram
  | ymsnd
  | soundlatch_r
  | k007232
  | workram
  | palette
deriving DecidableEq, Repr

/-- crimfght_state::crimfght_map, entries in install (map) order. -/
def crimfght_map : List (AddressRange Handler) :=
  [ ⟨0x0000, 0x03ff, 0, Handler.bank0000_amap8, 0⟩
  , ⟨0x0400, 0x1fff, 0, Handler.mainram, 1⟩
  , ⟨0x2000, 0x5fff, 0, Handler.k052109_051960, 2⟩
  , ⟨0x3f80, 0x3f80, 0, Handler.portSYSTEM, 3⟩
  , ⟨0x3f81, 0x3f81, 0, Handler.portP1, 4⟩
  , ⟨0x3f82, 0x3f82, 0, Handler.portP2, 5⟩
  , ⟨0x3f83, 0x3f83, 0, Handler.portDSW2, 6⟩
  , ⟨0x3f84, 0x3f84, 0, Handler.portDSW3, 7⟩
  , ⟨0x3f85, 0x3f85, 0, Handler.portP3, 8⟩
  , ⟨0x3f86, 0x3f86, 0, Handler.portP4, 9⟩
  , ⟨0x3f87, 0x3f87, 0, Handler.portDSW1, 10⟩
  , ⟨0x3f88, 0x3f88, 0x03, Handler.watchdog_coin, 11⟩
  , ⟨0x3f8c, 0x3f8c, 0x03, Handler.sound_latch_w, 12⟩
  , ⟨0x6000, 0x7fff, 0, Handler.rombank_r, 13⟩
  , ⟨0x8000, 0xffff, 0, Handler.mainrom, 14⟩ ]

/-- The port handlers installed at 0x3f80..0x3f87 of crimfght_map, in
address order. -/
def crimfght_ports : List Handler :=
  [ Handler.portSYSTEM, Handler.portP1, Handler.portP2, Handler.portDSW2
  , Handler.portDSW3, Handler.portP3, Handler.portP4, Handler.portDSW1 ]

/-- crimfght_state::crimfght_sound_map, entries in install (map) order. -/
def crimfght_sound_map : List (AddressRange Handler) :=
  [ ⟨0x0000, 0x7fff, 0, Handler.sndrom, 0⟩
  , ⟨0x8000, 0x87ff, 0x1800, Handler.sndram, 1⟩
  , ⟨0xa000, 0xa001, 0x1ffe, Handler.ymsnd, 2⟩
  , ⟨0xc000, 0xc000, 0x1fff, Handler.soundlatch_r, 3⟩
  , ⟨0xe000, 0xe00f, 0x1ff0, Handler.k007232, 4⟩ ]

/-- crimfght_state::bank0000_map (the nested space of the bank0000
address_map_bank device). -/
def bank0000_map : List (AddressRange Handler) :=
  [ ⟨0x0000, 0x03ff, 0, Handler.workram, 0⟩
  , ⟨0x0400, 0x07ff, 0, Handler.palette, 1⟩ ]

/-- Modelled from the spec: a minimal one-cell-per-handler memory backing
a space, exercising the unmapped-access rule (reads of unmapped addresses
return a fill value, writes are discarded). -/
def miniWrite (rs : List (AddressRange Nat)) (store : Nat → Nat) (a v : Nat) : Nat → Nat :=
  match resolve rs a with
  | some r => fun h => if h = r.handler then v else store h
  | none => store

/-- Modelled from the spec: read through the dispatcher; unmapped reads
return the all-bits-set fill value. -/
def miniRead (rs : List (AddressRange Nat)) (store : Nat → Nat) (a : Nat) : Nat :=
  match resolve rs a with
  | some r => store r.handler
  | none => 0xff

/-- The spec's end-to-end mirror example: one 8-bit handler at
[0x10,0x10] with mirror mask 0x0f. -/
def specMirrorSpace : List (AddressRange Nat) := [⟨0x10, 0x10, 0x0f, 0, 0⟩]

/-! ## Line propagation and the crimfght sound interrupt -/

/-- Modelled from the spec: a directed line with a logical state and a
list of subscriber devices. -/
structure Line where
  level : Bool
  subscribers : List Nat
deriving DecidableEq, Repr

/-- Result of asserting a line: the updated line plus the list of
(subscriber, state) deliveries performed before the assert returns. -/
structure LineAssertResult where
  line : Line
  delivered : List (Nat × Bool)
deriving DecidableEq, Repr

/-- Modelled from the spec: asserting a line synchronously invokes every
connected subscriber with the new state, in connection order, before the
assert returns. -/
def lineAssert (l : Line) (v : Bool) : LineAssertResult :=
  { line := { l with
    level := v }
  , delivered := l.subscribers.map (fun s => (s, v)) }

/-- The audio-CPU-facing state touched by crimfght_state::sound_w and
crimfght_state::audiocpu_irq_ack: the generic_latch_8 soundlatch and the
audio CPU's INPUT_LINE_IRQ0 level (true = ASSERT_LINE). -/
structure SoundIrqState where
  soundlatch : Nat
  irq0 : Bool
deriving DecidableEq, Repr

/-- crimfght_state::sound_w: writing the latch asserts the audio CPU's
IRQ0 line before the handler returns. -/
def sound_w (data : Nat) (st : SoundIrqState) : SoundIrqState :=
  { st with soundlatch := data &&& 0xff, irq0 := true }

/-- crimfght_state::audiocpu_irq_ack: the irq-acknowledge cycle clears
IRQ0 via flip-flop u86 and returns vector 0xff. -/
def audiocpu_irq_ack (st : SoundIrqState) : SoundIrqState × Nat :=
  ({ st with irq0 := false }, 0xff)

/-- Modelled from the spec: when the CPU takes the interrupt it invokes
the registered acknowledge callback and uses its return value as the
vector; the core itself does not clear the pending source state. -/
def cpuTakeIrq (ack : SoundIrqState → SoundIrqState × Nat)
    (st : SoundIrqState) : SoundIrqState × Nat :=
  ack st

/-! ## crimfght banking (banking_callback and the bank0000 device) -/

/-- The crimfght main-CPU state written by
crimfght_state::banking_callback. -/
structure CrimMainState where
  rombank : Nat
  woco : Bool
  rmrd : Bool
  init : Bool
deriving DecidableEq, Repr

/-- crimfght_state::banking_callback: rom bank from bits 0-3, bit 5
selects work RAM / palette via bank0000, bit 6 the rmrd line, bit 7 the
init flag. -/
def banking_callback (data : Nat) (st : CrimMainState) : CrimMainState :=
  { st with
    rombank := data &&& 0x0f
  , woco := data.testBit 5
  , rmrd := data.testBit 6
  , init := data.testBit 7 }

/-- Modelled from the spec: the bank0000 address_map_bank device (stride
0x400) dispatches an access at offset `a` of the banked region through
bank0000_map at `bank * 0x400 + a`; the bank index is the external
current-bank register (m_woco). -/
def bank0000_dispatch (woco : Bool) (a : Nat) : Option Handler :=
  (resolve bank0000_map ((cond woco 1 0) * 0x400 + a)).map AddressRange.handler

/-- An access step of the crimfght main CPU relevant to banking: either
the KONAMI CPU line callback (banking_callback) or a read in the banked
0x0000-0x03ff region. -/
inductive MainOp where
  | lineW (data : Nat)
  | readB (a : Nat)
deriving DecidableEq, Repr

/-- Run a sequence of banking ops, collecting the handler each banked
read dispatches to.  Each read is dispatched with the bank register as it
is at that access. -/
def mainRun (st : CrimMainState) : List MainOp → List (Option Handler)
  | [] => []
  | MainOp.lineW d :: rest => mainRun (banking_callback d st) rest
  | MainOp.readB a :: rest => bank0000_dispatch st.woco a :: mainRun st rest

/-! ## Scheduler timers -/

/-- Modelled from the spec: the Scheduler's TimerEntry, reduced to the
fields the periodic re-arm rule touches (scheduled fire SimTime and
period, both in exact attosecond-like integer units). -/
structure TimerEntry where
  scheduled : Nat
  period : Nat
deriving DecidableEq, Repr

/-- Modelled from the spec: a periodic timer re-arms by adding its period
to the *scheduled* fire time; the `now` at which the callback actually
ran is ignored. -/
def timer_rearm (t : TimerEntry) (_now : Nat) : TimerEntry :=
  { t with scheduled := t.scheduled + t.period }

/-- Fire a periodic timer once per entry of `actuals` (the actual times
the callback ran, which the re-arm rule must not consult). -/
def runPeriodic (t : TimerEntry) : List Nat → TimerEntry
  | [] => t
  | now :: rest => runPeriodic (timer_rearm t now) rest

/-! ## hp64k floppy interface and interrupt handling

Translated from the hp64k driver source (hp64k_state).  The external
FD1791 FDC and the floppy drives are collaborators: reads from them are
supplied by oracle fields (`fdc_data_in`, `fdc_reg_in`), writes to them
are recorded in logs (`fdc_data_writes`, `fdc_reg_writes`, `fdc_resets`);
`logerror` calls are counted in `log`. -/

/-- hp64k_state::floppy_state_t. -/
inductive FloppyIfState where
  | IDLE
  | DMAWR1
  | DMAWR2
  | DMARD1
  | DMARD2
deriving DecidableEq, Repr

/-- Set bit `n` (BIT_SET on a uint8 field). -/
def setBit8 (w n : Nat) : Nat := w ||| (1 <<< n)

/-- Clear bit `n` of an 8-bit value (BIT_CLR on a uint8 field). -/
def clearBit8 (w n : Nat) : Nat := w &&& (0xff ^^^ (1 <<< n))

/-- 8-bit complement (the `~` applied to FDC data bytes). -/
def inv8 (w : Nat) : Nat := (w &&& 0xff) ^^^ 0xff

/-- The hp64k_state fields used by the interrupt and floppy-DMA logic,
plus the CPU-facing lines (`cpu_irl` = HPHYBRID_IRL input level, `dmar` =
DMA request line) and the FDC collaborator logs/oracles. -/
structure Hp64kState where
  irl_mask : Nat
  irl_pending : Nat
  cpu_irl : Bool
  kb_row_col : Nat
  kb_pressed : Bool
  kb_scan_on : Bool
  floppy_in_latch_msb : Nat
  floppy_in_latch_lsb : Nat
  floppy_out_latch_msb : Nat
  floppy_out_latch_lsb : Nat
  floppy_if_ctrl : Nat
  floppy_dmaen : Bool
  floppy_dmai : Bool
  floppy_mdci : Bool
  floppy_intrq : Bool
  floppy_drq : Bool
  floppy_drv_ctrl : Nat
  floppy_status : Nat
  floppy_if_state : FloppyIfState
  dmar : Bool
  fdc_data_in : Nat
  fdc_reg_in : Nat
  fdc_data_writes : List Nat
  fdc_reg_writes : List (Nat × Nat)
  fdc_resets : Nat
  log : Nat
deriving DecidableEq, Repr

/-- hp64k_state::hp64k_update_irl: drive the CPU's HPHYBRID_IRL input
from the masked pending set. -/
def hp64k_update_irl (st : Hp64kState) : Hp64kState :=
  { st with cpu_irl := (st.irl_mask &&& st.irl_pending) != 0 }

/-- Numeric tag for the HPHYBRID_IRL input line (its concrete value lives
in the CPU core headers, outside the sampled sources; only equality with
itself matters here). -/
def HPHYBRID_IRL : Nat := 0

/-- hp64k_state::hp64k_irq_callback: acknowledging IRL returns 0xff00
OR'd with the masked pending set; other lines return ~0. -/
def hp64k_irq_callback (irqline : Nat) (st : Hp64kState) : Int :=
  if irqline = HPHYBRID_IRL then
    Int.ofNat (0xff00 ||| (st.irl_mask &&& st.irl_pending))
  else
    -1

/-- hp64k_state::hp64k_irl_mask_w. -/
def hp64k_irl_mask_w (data : Nat) (st : Hp64kState) : Hp64kState :=
  hp64k_update_irl { st with irl_mask := data &&& 0xff }

/-- The key-change branch of hp64k_state::hp64k_kb_scan (a key changed
state at the scan position): records the press, stops the scan, raises
pending bit 0 and updates IRL. -/
def hp64k_kb_scan_hit (pressed : Bool) (st : Hp64kState) : Hp64kState :=
  hp64k_update_irl
    { st with
      kb_pressed := pressed, kb_scan_on := false,
      irl_pending := setBit8 st.irl_pending 0 }

/-- hp64k_state::hp64k_kb_r: returns 0xff00 | row/col (bit 7 = pressed),
restarts scanning, clears pending bit 0 and updates IRL. -/
def hp64k_kb_r (st : Hp64kState) : Hp64kState × Nat :=
  let ret := 0xff00 ||| st.kb_row_col
  let ret := if st.kb_pressed then setBit8 ret 7 else ret
  ( hp64k_update_irl
      { st with kb_scan_on := true, irl_pending := clearBit8 st.irl_pending 0 }
  , ret )

/-- hp64k_state::hp64k_line_sync (timer callback): raises pending bit 2. -/
def hp64k_line_sync (st : Hp64kState) : Hp64kState :=
  hp64k_update_irl { st with irl_pending := setBit8 st.irl_pending 2 }

/-- hp64k_state::hp64k_deltat_r: clears pending bit 2, returns 0. -/
def hp64k_deltat_r (st : Hp64kState) : Hp64kState × Nat :=
  (hp64k_update_irl { st with irl_pending := clearBit8 st.irl_pending 2 }, 0)

/-- hp64k_state::hp64k_deltat_w: clears pending bit 2. -/
def hp64k_deltat_w (st : Hp64kState) : Hp64kState :=
  hp64k_update_irl { st with irl_pending := clearBit8 st.irl_pending 2 }

/-- hp64k_state::hp64k_rxrdy_w: pending bit 6 follows the UART RxRdy
line. -/
def hp64k_rxrdy_w (state : Bool) (st : Hp64kState) : Hp64kState :=
  hp64k_update_irl
    { st with
      irl_pending :=
        if state then setBit8 st.irl_pending 6 else clearBit8 st.irl_pending 6 }

/-- hp64k_state::hp64k_txrdy_w: pending bit 5 follows the UART TxRdy
line. -/
def hp64k_txrdy_w (state : Bool) (st : Hp64kState) : Hp64kState :=
  hp64k_update_irl
    { st with
      irl_pending :=
        if state then setBit8 st.irl_pending 5 else clearBit8 st.irl_pending 5 }

/-- hp64k_state::hp64k_phi_int_w: pending bit 7 follows the PHI interrupt
line. -/
def hp64k_phi_int_w (state : Bool) (st : Hp64kState) : Hp64kState :=
  hp64k_update_irl
    { st with
      irl_pending :=
        if state then setBit8 st.irl_pending 7 else clearBit8 st.irl_pending 7 }

/-- hp64k_state::hp64k_update_floppy_irq: mirror dmai/mdci into status
bits 6/7, compute the IR4 condition, set/clear pending bit 4 accordingly
and update IRL. -/
def hp64k_update_floppy_irq (st : Hp64kState) : Hp64kState :=
  let status := if st.floppy_dmai then setBit8 st.floppy_status 6
                else clearBit8 st.floppy_status 6
  let status := if st.floppy_mdci then setBit8 status 7 else clearBit8 status 7
  let ir4 := st.floppy_dmai || st.floppy_mdci ||
      (status.testBit 2 && !st.floppy_drv_ctrl.testBit 0) ||
      (status.testBit 5 && !st.floppy_drv_ctrl.testBit 3)
  hp64k_update_irl
    { st with
      floppy_status := status,
      irl_pending := if ir4 then setBit8 st.irl_pending 4
                     else clearBit8 st.irl_pending 4 }

/-- hp64k_state::hp64k_update_drv_ctrl, restricted to the modelled state:
drv-ctrl bits 2/5 reset the media-change status bits, then the floppy IRQ
summary is refreshed.  (Motor/side/drive-selection effects go to the
external drive devices.) -/
def hp64k_update_drv_ctrl (st : Hp64kState) : Hp64kState :=
  let st := if st.floppy_drv_ctrl.testBit 2 then
              { st with floppy_status := clearBit8 st.floppy_status 2 }
            else st
  let st := if st.floppy_drv_ctrl.testBit 5 then
              { st with floppy_status := clearBit8 st.floppy_status 5 }
            else st
  hp64k_update_floppy_irq st

/-- hp64k_state::hp64k_update_floppy_dma: the DRQ-driven FSM step.  A DRQ
in IDLE (with DMA enabled) starts a write (raise DMAR) or read (fetch the
first FDC byte); DMAWR2/DMARD1 are the in-transfer states a DRQ advances;
a DRQ in DMAWR1 or DMARD2 hits the default branch: logged and dropped. -/
def hp64k_update_floppy_dma (st : Hp64kState) : Hp64kState :=
  if st.floppy_drq && (st.floppy_dmaen || !(st.floppy_if_state == FloppyIfState.IDLE)) then
    match st.floppy_if_state with
    | FloppyIfState.IDLE =>
        if st.floppy_if_ctrl.testBit 6 then
          { st with dmar := true, floppy_if_state := FloppyIfState.DMAWR1 }
        else
          { st with
            floppy_out_latch_msb := inv8 st.fdc_data_in,
            floppy_if_state := FloppyIfState.DMARD1 }
    | FloppyIfState.DMAWR2 =>
        { st with
          fdc_data_writes := st.fdc_data_writes ++ [inv8 st.floppy_in_latch_lsb],
          floppy_if_state := FloppyIfState.IDLE }
    | FloppyIfState.DMARD1 =>
        { st with
          floppy_out_latch_lsb := inv8 st.fdc_data_in,
          dmar := true, floppy_if_state := FloppyIfState.DMARD2 }
    | _ => { st with log := st.log + 1 }
  else st

/-- hp64k_state::hp64k_flp_drq_w: latch the DRQ line level and run the
DMA FSM. -/
def hp64k_flp_drq_w (state : Bool) (st : Hp64kState) : Hp64kState :=
  hp64k_update_floppy_dma { st with floppy_drq := state }

/-- The switch of hp64k_state::hp64k_flp_r (before the final
hp64k_update_floppy_irq). -/
def hp64k_flp_r_core (offset : Nat) (st : Hp64kState) : Hp64kState :=
  match offset with
  | 0 =>
      if st.floppy_if_state == FloppyIfState.DMARD2 then
        { st with floppy_if_state := FloppyIfState.IDLE }
      else { st with log := st.log + 1 }
  | 1 =>
      if !(st.floppy_if_state == FloppyIfState.IDLE) then
        { st with log := st.log + 1 }
      else st
  | 2 =>
      if st.floppy_if_state == FloppyIfState.DMARD2 then
        { st with
          floppy_if_state := FloppyIfState.IDLE,
          floppy_dmaen := false, floppy_dmai := true }
      else { st with log := st.log + 1 }
  | _ => { st with log := st.log + 1 }

/-- hp64k_state::hp64k_flp_r: clear DMAR, run the IC-indexed switch,
refresh the floppy IRQ summary, and return the output latches. -/
def hp64k_flp_r (offset : Nat) (st : Hp64kState) : Hp64kState × Nat :=
  let st := hp64k_update_floppy_irq (hp64k_flp_r_core offset { st with dmar := false })
  (st, (st.floppy_out_latch_msb <<< 8) ||| st.floppy_out_latch_lsb)

/-- The IC=1 case of hp64k_state::hp64k_flp_w: load the I/F control
register and perform the selected FDC / drive-control access. -/
def hp64k_flp_w_ctrl (st : Hp64kState) : Hp64kState :=
  let st := if !(st.floppy_if_state == FloppyIfState.IDLE) then
              { st with log := st.log + 1 }
            else st
  let st := { st with floppy_if_ctrl := st.floppy_in_latch_msb }
  let st := if st.floppy_if_ctrl.testBit 4 then
              { st with fdc_resets := st.fdc_resets + 1 }
            else st
  let st := if st.floppy_if_ctrl.testBit 7 then
              { st with floppy_dmai := false, floppy_mdci := false }
            else st
  let st :=
    if st.floppy_if_ctrl.testBit 3 then
      if st.floppy_if_ctrl.testBit 2 then
        { st with
          fdc_reg_writes :=
            st.fdc_reg_writes ++ [(inv8 st.floppy_if_ctrl &&& 3, inv8 st.floppy_in_latch_lsb)] }
      else
        hp64k_update_drv_ctrl { st with floppy_drv_ctrl := st.floppy_in_latch_lsb }
    else
      if st.floppy_if_ctrl.testBit 2 then
        { st with floppy_out_latch_lsb := inv8 st.fdc_reg_in }
      else
        { st with floppy_out_latch_lsb := st.floppy_drv_ctrl }
  let st := { st with floppy_out_latch_msb := st.floppy_status }
  let st := { st with floppy_dmaen := st.floppy_if_ctrl.testBit 5 }
  hp64k_update_floppy_dma st

/-- The switch of hp64k_state::hp64k_flp_w (after the input latches are
loaded, before the final hp64k_update_floppy_irq). -/
def hp64k_flp_w_core (offset : Nat) (st : Hp64kState) : Hp64kState :=
  match offset with
  | 0 =>
      if st.floppy_if_state == FloppyIfState.DMAWR1 then
        { st with
          fdc_data_writes := st.fdc_data_writes ++ [inv8 st.floppy_in_latch_msb],
          floppy_if_state := FloppyIfState.DMAWR2 }
      else { st with log := st.log + 1 }
  | 1 => hp64k_flp_w_ctrl st
  | 2 =>
      if st.floppy_if_state == FloppyIfState.DMAWR1 then
        { st with
          fdc_data_writes := st.fdc_data_writes ++ [inv8 st.floppy_in_latch_msb],
          floppy_if_state := FloppyIfState.DMAWR2,
          floppy_dmaen := false, floppy_dmai := true }
      else { st with log := st.log + 1 }
  | _ => st

/-- hp64k_state::hp64k_flp_w: clear DMAR; IC=3 is ignored; otherwise load
the input latches, run the IC-indexed switch and refresh the floppy IRQ
summary. -/
def hp64k_flp_w (offset data : Nat) (st : Hp64kState) : Hp64kState :=
  let st := { st with dmar := false }
  if offset = 3 then st
  else
    hp64k_update_floppy_irq
      (hp64k_flp_w_core offset
        { st with
          floppy_in_latch_msb := (data >>> 8) &&& 0xff,
          floppy_in_latch_lsb := data &&& 0xff })

/-- hp64k_state::hp64k_flp_intrq_w: a rising FDC INTRQ edge (with
interrupt-clear not held) latches the media-change/FDC interrupt. -/
def hp64k_flp_intrq_w (state : Bool) (st : Hp64kState) : Hp64kState :=
  let st :=
    if state && !st.floppy_intrq && !st.floppy_if_ctrl.testBit 7 then
      hp64k_update_floppy_irq { st with floppy_mdci := true }
    else st
  { st with floppy_intrq := state }

/-- A concrete hp64k state (machine_reset values for the modelled fields;
status/latches/oracles zeroed) used for witnesses and counterexamples. -/
def hp64k_reset_state : Hp64kState :=
  { irl_mask := 0, irl_pending := 0, cpu_irl := false
  , kb_row_col := 0, kb_pressed := false, kb_scan_on := true
  , floppy_in_latch_msb := 0, floppy_in_latch_lsb := 0
  , floppy_out_latch_msb := 0, floppy_out_latch_lsb := 0
  , floppy_if_ctrl := 0xff, floppy_dmaen := false, floppy_dmai := false
  , floppy_mdci := false, floppy_intrq := false, floppy_drq := false
  , floppy_drv_ctrl := 0xff, floppy_status := 0
  , floppy_if_state := FloppyIfState.IDLE, dmar := false
  , fdc_data_in := 0, fdc_reg_in := 0
  , fdc_data_writes := [], fdc_reg_writes := [], fdc_resets := 0, log := 0 }

/-! ## konmedal68k control register and scanline interrupts -/

/-- The konmedal68k_state fields driving the two scanline IRQs: the
control register and the two M68K input-line levels (true =
ASSERT_LINE). -/
structure KonState where
  control : Nat
  irq3 : Bool
  irq4 : Bool
deriving DecidableEq, Repr

/-- konmedal68k_state::control_w: store the low byte; a write with bit 3
(resp. bit 4) clear immediately clears M68K_IRQ_3 (resp. M68K_IRQ_4). -/
def control_w (data : Nat) (st : KonState) : KonState :=
  let st := { st with control := data &&& 0xff }
  let st := if data &&& 0x8 = 0 then { st with irq3 := false } else st
  if data &&& 0x10 = 0 then { st with irq4 := false } else st

/-- konmedal68k_state::scanline (timer callback): assert M68K_IRQ_3 at
scanline 240 when control bit 3 is set, M68K_IRQ_4 at scanline 255 when
control bit 4 is set. -/
def scanline (param : Nat) (st : KonState) : KonState :=
  let st := if param = 240 && !(st.control &&& 0x8 == 0) then
              { st with irq3 := true }
            else st
  if param = 255 && !(st.control &&& 0x10 == 0) then
    { st with irq4 := true }
  else st

/-- The IRL-line invariant of the hp64k driver: the CPU's HPHYBRID_IRL
input is asserted exactly when the masked pending set is nonzero. -/
def IrlInv (st : Hp64kState) : Prop :=
  st.cpu_irl = ((st.irl_mask &&& st.irl_pending) != 0)

/-! ## Helper lemmas about the dispatch model -/

theorem resolve_eq_none {H : Type} {rs : List (AddressRange H)} {a : Nat}
    (h : resolve rs a = none) : ∀ r ∈ rs, rangeMatches r a = false := by
  induction rs with
  | nil => intro r hr; cases hr
  | cons r0 rest ih =>
    intro r hr
    cases hrest : resolve rest a with
    | some x =>
      simp only [resolve, hrest] at h
      exact absurd h (by simp)
    | none =>
      simp only [resolve, hrest] at h
      rcases List.mem_cons.mp hr with h0 | hmem
      · subst h0
        by_contra hb
        simp only [Bool.not_eq_false] at hb
        rw [hb] at h
        simp at h
      · exact ih hrest r hmem

theorem resolve_mem {H : Type} {rs : List (AddressRange H)} {a : Nat} {r : AddressRange H}
    (h : resolve rs a = some r) : r ∈ rs ∧ rangeMatches r a = true := by
  induction rs with
  | nil => simp [resolve] at h
  | cons r0 rest ih =>
    cases hrest : resolve rest a with
    | some x =>
      simp only [resolve, hrest] at h
      injection h with h
      subst h
      exact ⟨List.mem_cons_of_mem _ (ih hrest).1, (ih hrest).2⟩
    | none =>
      simp only [resolve, hrest] at h
      by_cases hb : rangeMatches r0 a = true
      · rw [if_pos hb] at h
        injection h with h
        subst h
        exact ⟨List.mem_cons_self _ _, hb⟩
      · rw [if_neg hb] at h
        cases h

theorem resolve_max_seq {H : Type} {rs : List (AddressRange H)} {a : Nat} {r : AddressRange H}
    (hord : SeqOrdered rs) (h : resolve rs a = some r) :
    ∀ r' ∈ rs, rangeMatches r' a = true → r'.seq ≤ r.seq := by
  induction rs with
  | nil => intro r' hr'; cases hr'
  | cons r0 rest ih =>
    have hp := List.pairwise_cons.mp hord
    intro r' hr' hm'
    cases hrest : resolve rest a with
    | some x =>
      simp only [resolve, hrest] at h
      injection h with h
      subst h
      rcases List.mem_cons.mp hr' with h0 | hmem
      · subst h0
        exact Nat.le_of_lt (hp.1 _ (resolve_mem hrest).1)
      · exact ih hp.2 hrest r' hmem hm'
    | none =>
      simp only [resolve, hrest] at h
      rcases List.mem_cons.mp hr' with h0 | hmem
      · subst h0
        rw [hm'] at h
        simp only [if_true] at h
        injection h with h
        subst h
        exact Nat.le_refl _
      · exact absurd hm' (by simp [resolve_eq_none hrest r' hmem])

theorem land_lor_distrib_right (x y z : Nat) : (x ||| y) &&& z = (x &&& z) ||| (y &&& z) :=
  Nat.eq_of_testBit_eq fun i => by
    simp [Nat.testBit_land, Nat.testBit_lor, Bool.and_or_distrib_right]

theorem land_xor_self_eq_zero (x y : Nat) (h : x &&& y = x) : x &&& (y ^^^ x) = 0 :=
  Nat.eq_of_testBit_eq fun i => by
    have hx := congrArg (fun t => Nat.testBit t i) h
    simp only [Nat.testBit_land] at hx
    simp only [Nat.testBit_land, Nat.testBit_xor, Nat.zero_testBit]
    cases hbx : Nat.testBit x i <;> cases hby : Nat.testBit y i <;> simp_all

theorem land_of_subset_land (m M k : Nat) (hm : m &&& M = m) (hMk : M &&& k = 0) :
    m &&& k = 0 := by
  calc m &&& k = (m &&& M) &&& k := by rw [hm]
  _ = m &&& (M &&& k) := Nat.land_assoc m M k
  _ = m &&& 0 := by rw [hMk]
  _ = 0 := Nat.and_zero m

theorem rangeMatches_lor_of_subset {H : Type} (r : AddressRange H) (a m : Nat)
    (hm : m &&& r.mirror = m) (hr : r.mirror &&& ADDR_MASK = r.mirror) :
    rangeMatches r (a ||| m) = rangeMatches r a := by
  have hMk : r.mirror &&& (ADDR_MASK ^^^ r.mirror) = 0 := land_xor_self_eq_zero _ _ hr
  have hmk : m &&& (ADDR_MASK ^^^ r.mirror) = 0 := land_of_subset_land m r.mirror _ hm hMk
  simp only [rangeMatches]
  rw [land_lor_distrib_right, hmk, Nat.or_zero]

theorem soundlatch_range_wins (m : Nat) (hm : m &&& 0x1fff = m) :
    resolve crimfght_sound_map (0xc000 ||| m) =
      some ⟨0xc000, 0xc000, 0x1fff, Handler.soundlatch_r, 3⟩ := by
  have h13 : m &&& 0xe000 = 0 := land_of_subset_land m 0x1fff 0xe000 hm (by decide)
  have hbase3 : (0xc000 ||| m) &&& 0xe000 = 0xc000 := by
    rw [land_lor_distrib_right, h13, Nat.or_zero]
    decide
  have hmatch3 :
      rangeMatches (⟨0xc000, 0xc000, 0x1fff, Handler.soundlatch_r, 3⟩ : AddressRange Handler)
        (0xc000 ||| m) = true := by
    simp only [rangeMatches, ADDR_MASK,
      show ((0xffff : Nat) ^^^ 0x1fff) = 0xe000 from by decide, hbase3]
    decide
  have hm13 : m.testBit 13 = false := by
    have hc := congrArg (fun t => Nat.testBit t 13) hm
    simp only [Nat.testBit_land] at hc
    rw [show ((0x1fff : Nat).testBit 13) = false from by decide, Bool.and_false] at hc
    exact hc.symm
  have hb13 : ((0xc000 ||| m) &&& 0xe00f).testBit 13 = false := by
    rw [Nat.testBit_land, Nat.testBit_lor, hm13,
      show ((0xc000 : Nat).testBit 13) = false from by decide]
    rfl
  have hno :
      rangeMatches (⟨0xe000, 0xe00f, 0x1ff0, Handler.k007232, 4⟩ : AddressRange Handler)
        (0xc000 ||| m) = false := by
    simp only [rangeMatches, ADDR_MASK,
      show ((0xffff : Nat) ^^^ 0x1ff0) = 0xe00f from by decide]
    rcases Nat.lt_or_ge ((0xc000 ||| m) &&& 0xe00f) 0xe000 with hlt | hge
    · rw [decide_eq_false (by omega : ¬((0xe000 : Nat) ≤ (0xc000 ||| m) &&& 0xe00f))]
      rw [Bool.false_and]
    · rcases Nat.lt_or_ge (0xe00f : Nat) ((0xc000 ||| m) &&& 0xe00f) with hgt | hle
      · rw [decide_eq_false (by omega : ¬((0xc000 ||| m) &&& 0xe00f ≤ (0xe00f : Nat)))]
        rw [Bool.and_false]
      · exfalso
        have hdiv : ((0xc000 ||| m) &&& 0xe00f) / 2 ^ 13 % 2 = 1 := by
          have h1 : (2 : Nat) ^ 13 = 8192 := by norm_num
          rw [h1]; omega
        rw [Nat.testBit_to_div_mod, hdiv] at hb13
        simp at hb13
  simp only [crimfght_sound_map, resolve, hno, hmatch3]
  rfl

/-! ## Claim theorems -/

/-- C1: address-space dispatch is last-installed-wins: in a well-sequenced
space, resolution never returns a range when a later-installed range also
covers the address; concretely, in crimfght_map every read at
0x3f80..0x3f87 resolves to the corresponding later-installed port
handler, even though the earlier 0x2000-0x5fff video/sprite range covers
those addresses. -/
theorem C1_last_installed_wins :
    (∀ (H : Type) (rs : List (AddressRange H)) (a : Nat) (r1 r2 : AddressRange H),
       SeqOrdered rs → r1 ∈ rs → r2 ∈ rs → r1.seq < r2.seq →
       rangeMatches r1 a = true → rangeMatches r2 a = true →
       resolve rs a ≠ some r1)
    ∧ (∀ i, i < 8 →
       (resolve crimfght_map (0x3f80 + i)).map AddressRange.handler = crimfght_ports.get? i
       ∧ rangeMatches (⟨0x2000, 0x5fff, 0, Handler.k052109_051960, 2⟩ : AddressRange Handler)
           (0x3f80 + i) = true
       ∧ (resolve crimfght_map (0x3f80 + i)).map AddressRange.handler
           ≠ some Handler.k052109_051960) := by
  constructor
  · intro H rs a r1 r2 hord h1 h2 hlt hm1 hm2 hres
    exact absurd (resolve_max_seq hord hres r2 h2 hm2) (by omega)
  · decide

/-- Witness for C1 at a concrete input: address 0x3f80, with the video
range (seq 2) installed before the SYSTEM port range (seq 3), both
covering it. -/
theorem C1_last_installed_wins_witness :
    resolve crimfght_map 0x3f80
      ≠ some ⟨0x2000, 0x5fff, 0, Handler.k052109_051960, 2⟩
    ∧ (resolve crimfght_map (0x3f80 + 0)).map AddressRange.handler
      = some Handler.portSYSTEM := by
  constructor
  · exact C1_last_installed_wins.1 Handler crimfght_map 0x3f80
      ⟨0x2000, 0x5fff, 0, Handler.k052109_051960, 2⟩
      ⟨0x3f80, 0x3f80, 0, Handler.portSYSTEM, 3⟩
      (by decide) (by decide) (by decide) (by decide) (by decide) (by decide)
  · exact (C1_last_installed_wins.2 0 (by decide)).1

/-- C2: mirror aliasing is exact: a range with mirror mask M matches
A|m exactly when it matches A, for every m ⊆ M; in the crimfght sound
map every address 0xc000|m (m ⊆ 0x1fff) resolves identically to 0xc000,
to the soundlatch read handler; and the spec's end-to-end example (8-bit
handler at [0x10,0x10] mirror 0x0f, write 0x42 at 0x18, read 0x10)
returns 0x42. -/
theorem C2_mirror_alias :
    (∀ (H : Type) (r : AddressRange H) (a m : Nat),
       m &&& r.mirror = m → r.mirror &&& ADDR_MASK = r.mirror →
       rangeMatches r (a ||| m) = rangeMatches r a)
    ∧ (∀ m : Nat, m &&& 0x1fff = m →
       resolve crimfght_sound_map (0xc000 ||| m) = resolve crimfght_sound_map 0xc000
       ∧ (resolve crimfght_sound_map (0xc000 ||| m)).map AddressRange.handler
           = some Handler.soundlatch_r)
    ∧ miniRead specMirrorSpace (miniWrite specMirrorSpace (fun _ => 0) 0x18 0x42) 0x10
        = 0x42 := by
  refine ⟨fun H r a m hm hr => rangeMatches_lor_of_subset r a m hm hr, ?_, by decide⟩
  intro m hm
  have h := soundlatch_range_wins m hm
  have h0 : resolve crimfght_sound_map 0xc000 =
      some ⟨0xc000, 0xc000, 0x1fff, Handler.soundlatch_r, 3⟩ := by decide
  exact ⟨h.trans h0.symm, by rw [h]; rfl⟩

/-- Witness for C2 at concrete inputs: the alias bit pattern 0x8 ⊆ 0x0f
on the spec example range, and the fully-mirrored sound-latch address
0xc000|0x1fff. -/
theorem C2_mirror_alias_witness :
    rangeMatches (⟨0x10, 0x10, 0x0f, (0 : Nat), 0⟩ : AddressRange Nat) (0x10 ||| 0x8)
      = rangeMatches (⟨0x10, 0x10, 0x0f, (0 : Nat), 0⟩ : AddressRange Nat) 0x10
    ∧ resolve crimfght_sound_map (0xc000 ||| 0x1fff) = resolve crimfght_sound_map 0xc000 := by
  constructor
  · exact C2_mirror_alias.1 Nat ⟨0x10, 0x10, 0x0f, 0, 0⟩ 0x10 0x8 (by decide) (by decide)
  · exact (C2_mirror_alias.2.1 0x1fff (by decide)).1

/-- C3: line assertion is synchronous: asserting a line delivers the new
state to every subscriber (in connection order) before the assert
returns, and a later query of the line state sees the asserted value; in
crimfght, sound_w leaves the audio CPU's IRQ0 input asserted (and the
latch loaded) by the time the write handler returns. -/
theorem C3_synchronous_line_assert :
    (∀ (l : Line) (v : Bool),
       (lineAssert l v).delivered = l.subscribers.map (fun s => (s, v))
       ∧ (lineAssert l v).line.level = v
       ∧ (lineAssert l v).line.subscribers = l.subscribers)
    ∧ (∀ (d : Nat) (st : SoundIrqState),
       (sound_w d st).irq0 = true ∧ (sound_w d st).soundlatch = d &&& 0xff) :=
  ⟨fun _ _ => ⟨rfl, rfl, rfl⟩, fun _ _ => ⟨rfl, rfl⟩⟩

/-- C4: interrupt acknowledge semantics: taking the interrupt invokes the
registered acknowledge callback, its return value (0xff) is the vector
supplied to the CPU, and nothing but the callback clears the pending
line: sound_w leaves IRQ0 asserted (even across further sound_w calls)
until audiocpu_irq_ack clears it. -/
theorem C4_irq_ack_semantics :
    ∀ (st : SoundIrqState) (d d2 : Nat),
      ((sound_w d st).irq0 = true)
      ∧ ((sound_w d2 (sound_w d st)).irq0 = true)
      ∧ (audiocpu_irq_ack (sound_w d st)
          = ({ sound_w d st with irq0 := false }, 0xff))
      ∧ (cpuTakeIrq audiocpu_irq_ack (sound_w d st)
          = ({ sound_w d st with irq0 := false }, 0xff))
      ∧ ((audiocpu_irq_ack st).2 = 0xff)
      ∧ ((audiocpu_irq_ack st).1.irq0 = false)
      ∧ ((audiocpu_irq_ack st).1.soundlatch = st.soundlatch) :=
  fun _ _ _ => ⟨rfl, rfl, rfl, rfl, rfl, rfl, rfl⟩

/-- C7: periodic timers do not drift: each re-arm adds exactly the period
to the scheduled fire time, ignoring the actual callback times, so after
K firings (for any K, including 10000) the scheduled time is the
registration time plus exactly K * P. -/
theorem C7_periodic_no_drift :
    ∀ (t0 P : Nat) (acts : List Nat) (now : Nat),
      (runPeriodic ⟨t0, P⟩ acts).scheduled = t0 + acts.length * P
      ∧ (runPeriodic ⟨t0, P⟩ acts).period = P
      ∧ (timer_rearm (runPeriodic ⟨t0, P⟩ acts) now).scheduled
          = (runPeriodic ⟨t0, P⟩ acts).scheduled + P
      ∧ (runPeriodic ⟨t0, P⟩ (List.replicate 10000 now)).scheduled = t0 + 10000 * P := by
  have key : ∀ (acts : List Nat) (t : TimerEntry),
      (runPeriodic t acts).scheduled = t.scheduled + acts.length * t.period
      ∧ (runPeriodic t acts).period = t.period := by
    intro acts
    induction acts with
    | nil => intro t; simp [runPeriodic]
    | cons now rest ih =>
      intro t
      have h := ih (timer_rearm t now)
      simp only [runPeriodic, List.length_cons]
      constructor
      · rw [h.1]
        simp only [timer_rearm]
        ring
      · rw [h.2]
        rfl
  intro t0 P acts now
  refine ⟨(key acts ⟨t0, P⟩).1, (key acts ⟨t0, P⟩).2, ?_, ?_⟩
  · simp only [timer_rearm]
    rw [(key acts ⟨t0, P⟩).2]
  · rw [(key (List.replicate 10000 now) ⟨t0, P⟩).1, List.length_replicate]

theorem land_ffff_of_lt (x : Nat) (hx : x < 0x10000) : x &&& 0xffff = x := by
  have h := Nat.and_pow_two_sub_one_eq_mod x 16
  norm_num at h
  rw [h, Nat.mod_eq_of_lt hx]

theorem bank0000_dispatch_false (a : Nat) (ha : a < 0x400) :
    bank0000_dispatch false a = some Handler.workram := by
  simp only [bank0000_dispatch, bank0000_map, resolve, rangeMatches, ADDR_MASK]
  rw [show (cond false 1 0 * 0x400 + a) = a from by simp]
  simp only [Nat.xor_zero, land_ffff_of_lt a (by omega)]
  rw [decide_eq_false (by omega : ¬((0x400 : Nat) ≤ a)), Bool.false_and]
  rw [decide_eq_true (by omega : (0 : Nat) ≤ a), decide_eq_true (by omega : a ≤ 0x3ff)]
  rfl

theorem bank0000_dispatch_true (a : Nat) (ha : a < 0x400) :
    bank0000_dispatch true a = some Handler.palette := by
  simp only [bank0000_dispatch, bank0000_map, resolve, rangeMatches, ADDR_MASK]
  rw [show (cond true 1 0 * 0x400 + a) = 0x400 + a from by simp]
  simp only [Nat.xor_zero, land_ffff_of_lt (0x400 + a) (by omega)]
  rw [decide_eq_true (by omega : (0x400 : Nat) ≤ 0x400 + a),
    decide_eq_true (by omega : 0x400 + a ≤ 0x7ff), Bool.true_and]
  rfl

/-- C8: bank switching takes effect on the next access and never
retroactively: in the read/switch/read trace the first read dispatches
with the old bank register and the second with the bank selected by bit 5
of the written value; bank 0 resolves the banked 0x0000-0x03ff region to
work RAM and bank 1 to palette RAM. -/
theorem C8_bank_switch_next_access :
    ∀ (st : CrimMainState) (d a : Nat), a < 0x400 →
      (mainRun st [MainOp.readB a, MainOp.lineW d, MainOp.readB a]
        = [bank0000_dispatch st.woco a, bank0000_dispatch (d.testBit 5) a])
      ∧ bank0000_dispatch false a = some Handler.workram
      ∧ bank0000_dispatch true a = some Handler.palette
      ∧ (banking_callback d st).woco = d.testBit 5
      ∧ (banking_callback d st).rombank = d &&& 0x0f := by
  intro st d a ha
  exact ⟨rfl, bank0000_dispatch_false a ha, bank0000_dispatch_true a ha, rfl, rfl⟩

/-- Witness for C8 at a concrete input: a read/switch/read trace at
offset 0x123, switching from bank 0 to bank 1 with data 0x20. -/
theorem C8_bank_switch_next_access_witness :
    mainRun ⟨0, false, false, false⟩
        [MainOp.readB 0x123, MainOp.lineW 0x20, MainOp.readB 0x123]
      = [bank0000_dispatch false 0x123, bank0000_dispatch true 0x123]
    ∧ bank0000_dispatch false 0x123 = some Handler.workram
    ∧ bank0000_dispatch true 0x123 = some Handler.palette := by
  have h := C8_bank_switch_next_access ⟨0, false, false, false⟩ 0x20 0x123 (by decide)
  refine ⟨?_, h.2.1, h.2.2.1⟩
  have h1 := h.1
  rw [show Nat.testBit 0x20 5 = true from by decide] at h1
  exact h1

/-! ## Helper lemmas for the hp64k state machine -/

theorem testBit_setBit8_self (w n : Nat) : (setBit8 w n).testBit n = true := by
  simp [setBit8, Nat.testBit_lor, Nat.one_shiftLeft, Nat.testBit_two_pow_self]

theorem testBit_setBit8_of_ne (w m n : Nat) (h : n ≠ m) :
    (setBit8 w n).testBit m = w.testBit m := by
  simp [setBit8, Nat.testBit_lor, Nat.one_shiftLeft, Nat.testBit_two_pow_of_ne h]

theorem testBit_clearBit8_of_ne (w m n : Nat) (hm : m < 8) (h : n ≠ m) :
    (clearBit8 w n).testBit m = w.testBit m := by
  have h255 : (0xff : Nat).testBit m = true := by
    interval_cases m <;> decide
  simp [clearBit8, Nat.testBit_land, Nat.testBit_xor, Nat.one_shiftLeft,
    Nat.testBit_two_pow_of_ne h, h255]

theorem irlInv_update_irl (st : Hp64kState) : IrlInv (hp64k_update_irl st) := rfl

theorem irlInv_update_floppy_irq (st : Hp64kState) :
    IrlInv (hp64k_update_floppy_irq st) := rfl

theorem floppy_irq_dmai (st : Hp64kState) (h : st.floppy_dmai = true) :
    (hp64k_update_floppy_irq st).floppy_status.testBit 6 = true
    ∧ (hp64k_update_floppy_irq st).irl_pending.testBit 4 = true := by
  have h76 := testBit_setBit8_of_ne (setBit8 st.floppy_status 6) 6 7 (by decide)
  have h66 := testBit_setBit8_self st.floppy_status 6
  have hc76 := testBit_clearBit8_of_ne (setBit8 st.floppy_status 6) 6 7 (by decide) (by decide)
  have h44 := testBit_setBit8_self st.irl_pending 4
  unfold hp64k_update_floppy_irq hp64k_update_irl
  simp only [h]
  constructor
  · cases hm : st.floppy_mdci <;> simp [hm, h76, h66, hc76]
  · simp [h44]

theorem update_floppy_irq_preserves (st : Hp64kState) :
    (hp64k_update_floppy_irq st).floppy_if_state = st.floppy_if_state
    ∧ (hp64k_update_floppy_irq st).floppy_dmaen = st.floppy_dmaen
    ∧ (hp64k_update_floppy_irq st).floppy_dmai = st.floppy_dmai
    ∧ (hp64k_update_floppy_irq st).irl_mask = st.irl_mask :=
  ⟨rfl, rfl, rfl, rfl⟩

/-- C5 counterexample: a DRQ edge delivered in the non-Idle state DMAWR2
is not a protocol violation in the code: hp64k_update_floppy_dma advances
the transfer (writes the pending low byte to the FDC and returns to
Idle) and logs nothing, so the state is not left unchanged. -/
theorem C5_counterexample_drq_in_DMAWR2 :
    ({ hp64k_reset_state with
       floppy_if_state := FloppyIfState.DMAWR2 } : Hp64kState).floppy_if_state
      ≠ FloppyIfState.IDLE
    ∧ (hp64k_flp_drq_w true
        { hp64k_reset_state with floppy_if_state := FloppyIfState.DMAWR2 }).floppy_if_state
      = FloppyIfState.IDLE
    ∧ (hp64k_flp_drq_w true
        { hp64k_reset_state with floppy_if_state := FloppyIfState.DMAWR2 }).log
      = hp64k_reset_state.log := by
  refine ⟨by decide, rfl, rfl⟩

/-- C5 (amended): a DRQ edge received in DMAWR1 or DMARD2 — the states
awaiting a CPU DMA access, where a DRQ is out of sequence — is logged and
ignored: the whole effect is the DRQ latch and the log count; state,
latches, FDC writes, DMA-enable/interrupt flags and the CPU DMA-request
line are unchanged.  (In DMAWR2/DMARD1 a DRQ legitimately advances the
transfer.) -/
theorem C5_drq_violation_logged_ignored :
    ∀ st : Hp64kState,
      st.floppy_if_state = FloppyIfState.DMAWR1 ∨ st.floppy_if_state = FloppyIfState.DMARD2 →
      hp64k_flp_drq_w true st = { st with floppy_drq := true, log := st.log + 1 } := by
  intro st h
  unfold hp64k_flp_drq_w hp64k_update_floppy_dma
  rcases h with h | h <;> simp [h]

/-- Witness for C5 at a concrete input: a DRQ in DMAWR1 from the reset
state. -/
theorem C5_drq_violation_logged_ignored_witness :
    hp64k_flp_drq_w true { hp64k_reset_state with floppy_if_state := FloppyIfState.DMAWR1 }
      = { hp64k_reset_state with
          floppy_if_state := FloppyIfState.DMAWR1, floppy_drq := true, log := 1 } := by
  have h := C5_drq_violation_logged_ignored
    { hp64k_reset_state with floppy_if_state := FloppyIfState.DMAWR1 } (Or.inl rfl)
  exact h

/-- C6 counterexample: a write to the IC=2 register (terminal count)
while in DMAWR1 does not return the sequencer to Idle: it moves it to
DMAWR2 (the second byte still goes out on the next DRQ); and with the IRL
mask zero the CPU interrupt-request line stays de-asserted, so the
completion interrupt does not unconditionally raise the CPU interrupt
request. -/
theorem C6_counterexample_write_tc_DMAWR1 :
    (hp64k_flp_w 2 0
        { hp64k_reset_state with floppy_if_state := FloppyIfState.DMAWR1 }).floppy_if_state
      = FloppyIfState.DMAWR2
    ∧ FloppyIfState.DMAWR2 ≠ FloppyIfState.IDLE
    ∧ (hp64k_flp_w 2 0
        { hp64k_reset_state with floppy_if_state := FloppyIfState.DMAWR1 }).cpu_irl
      = false := by
  refine ⟨rfl, by decide, rfl⟩

/-- C6 (amended): terminal count completes a DMA transfer with interrupt
and disable: a read of IC=2 in DMARD2 returns the sequencer to Idle; a
write of IC=2 in DMAWR1 advances it to DMAWR2 and it drains to Idle on
the following DRQ; both de-assert DMA-enable and set the completion
interrupt m_floppy_dmai, which raises the DMA-pending status bit (bit 6)
and the IRL pending bit 4, and the CPU interrupt request is asserted
exactly when the masked pending set is nonzero. -/
theorem C6_terminal_count_completes :
    ∀ (st : Hp64kState) (d : Nat),
      (st.floppy_if_state = FloppyIfState.DMARD2 →
        (hp64k_flp_r 2 st).1.floppy_if_state = FloppyIfState.IDLE
        ∧ (hp64k_flp_r 2 st).1.floppy_dmaen = false
        ∧ (hp64k_flp_r 2 st).1.floppy_dmai = true
        ∧ (hp64k_flp_r 2 st).1.floppy_status.testBit 6 = true
        ∧ (hp64k_flp_r 2 st).1.irl_pending.testBit 4 = true
        ∧ IrlInv (hp64k_flp_r 2 st).1)
      ∧ (st.floppy_if_state = FloppyIfState.DMAWR1 →
        (hp64k_flp_w 2 d st).floppy_if_state = FloppyIfState.DMAWR2
        ∧ (hp64k_flp_w 2 d st).floppy_dmaen = false
        ∧ (hp64k_flp_w 2 d st).floppy_dmai = true
        ∧ (hp64k_flp_w 2 d st).floppy_status.testBit 6 = true
        ∧ (hp64k_flp_w 2 d st).irl_pending.testBit 4 = true
        ∧ IrlInv (hp64k_flp_w 2 d st)
        ∧ (hp64k_flp_w 2 d st).fdc_data_writes
            = st.fdc_data_writes ++ [inv8 ((d >>> 8) &&& 0xff)]
        ∧ (hp64k_flp_drq_w true (hp64k_flp_w 2 d st)).floppy_if_state
            = FloppyIfState.IDLE) := by
  intro st d
  constructor
  · intro h
    have hcore : hp64k_flp_r_core 2 { st with dmar := false }
        = { st with
            dmar := false, floppy_if_state := FloppyIfState.IDLE,
            floppy_dmaen := false, floppy_dmai := true } := by
      simp [hp64k_flp_r_core, h]
    have h1 : (hp64k_flp_r 2 st).1 = hp64k_update_floppy_irq
        { st with
          dmar := false, floppy_if_state := FloppyIfState.IDLE,
          floppy_dmaen := false, floppy_dmai := true } := by
      simp [hp64k_flp_r, hcore]
    rw [h1]
    exact ⟨(update_floppy_irq_preserves _).1, (update_floppy_irq_preserves _).2.1,
      (update_floppy_irq_preserves _).2.2.1, (floppy_irq_dmai _ rfl).1,
      (floppy_irq_dmai _ rfl).2, irlInv_update_floppy_irq _⟩
  · intro h
    have hw : hp64k_flp_w 2 d st = hp64k_update_floppy_irq
        { st with
          dmar := false, floppy_in_latch_msb := (d >>> 8) &&& 0xff,
          floppy_in_latch_lsb := d &&& 0xff,
          fdc_data_writes := st.fdc_data_writes ++ [inv8 ((d >>> 8) &&& 0xff)],
          floppy_if_state := FloppyIfState.DMAWR2,
          floppy_dmaen := false, floppy_dmai := true } := by
      simp [hp64k_flp_w, hp64k_flp_w_core, h]
    rw [hw]
    exact ⟨(update_floppy_irq_preserves _).1, (update_floppy_irq_preserves _).2.1,
      (update_floppy_irq_preserves _).2.2.1, (floppy_irq_dmai _ rfl).1,
      (floppy_irq_dmai _ rfl).2, irlInv_update_floppy_irq _, rfl, rfl⟩

/-- Witness for C6 at a concrete input: terminal-count read in DMARD2 and
terminal-count write in DMAWR1, both from the reset state. -/
theorem C6_terminal_count_completes_witness :
    (hp64k_flp_r 2
        { hp64k_reset_state with floppy_if_state := FloppyIfState.DMARD2 }).1.floppy_if_state
      = FloppyIfState.IDLE
    ∧ (hp64k_flp_r 2
        { hp64k_reset_state with floppy_if_state := FloppyIfState.DMARD2 }).1.floppy_dmai
      = true
    ∧ (hp64k_flp_w 2 0x1234
        { hp64k_reset_state with floppy_if_state := FloppyIfState.DMAWR1 }).floppy_if_state
      = FloppyIfState.DMAWR2 := by
  have hr := (C6_terminal_count_completes
    { hp64k_reset_state with floppy_if_state := FloppyIfState.DMARD2 } 0).1 rfl
  have hw := (C6_terminal_count_completes
    { hp64k_reset_state with floppy_if_state := FloppyIfState.DMAWR1 } 0x1234).2 rfl
  exact ⟨hr.1, hr.2.2.1, hw.1⟩

/-- C9: the hp64k IRL invariant: every handler or callback that modifies
the interrupt mask or the pending set re-derives the CPU's HPHYBRID_IRL
input via hp64k_update_irl, so on return the line is asserted iff
(m_irl_mask & m_irl_pending) != 0; and the interrupt-acknowledge callback
returns 0xff00 OR'd with exactly the masked pending set. -/
theorem C9_irl_invariant :
    ∀ (st : Hp64kState) (data off : Nat) (b : Bool),
      IrlInv (hp64k_irl_mask_w data st)
      ∧ IrlInv (hp64k_kb_scan_hit b st)
      ∧ IrlInv (hp64k_kb_r st).1
      ∧ IrlInv (hp64k_line_sync st)
      ∧ IrlInv (hp64k_deltat_r st).1
      ∧ IrlInv (hp64k_deltat_w st)
      ∧ IrlInv (hp64k_rxrdy_w b st)
      ∧ IrlInv (hp64k_txrdy_w b st)
      ∧ IrlInv (hp64k_phi_int_w b st)
      ∧ IrlInv (hp64k_update_floppy_irq st)
      ∧ IrlInv (hp64k_update_drv_ctrl st)
      ∧ IrlInv (hp64k_flp_r off st).1
      ∧ (off ≠ 3 → IrlInv (hp64k_flp_w off data st))
      ∧ hp64k_irq_callback HPHYBRID_IRL st
          = Int.ofNat (0xff00 ||| (st.irl_mask &&& st.irl_pending)) := by
  intro st data off b
  refine ⟨rfl, rfl, rfl, rfl, rfl, rfl, rfl, rfl, rfl, rfl, ?_, rfl, ?_, rfl⟩
  · unfold hp64k_update_drv_ctrl
    exact irlInv_update_floppy_irq _
  · intro hoff
    unfold hp64k_flp_w
    rw [if_neg hoff]
    exact irlInv_update_floppy_irq _

/-- Witness for C9 at a concrete input: the I/F register write (IC=1,
whose offset is not 3) from the reset state, and the mask write that
unmasks everything. -/
theorem C9_irl_invariant_witness :
    IrlInv (hp64k_flp_w 1 0x2000 hp64k_reset_state)
    ∧ IrlInv (hp64k_irl_mask_w 0xff hp64k_reset_state) := by
  have h := C9_irl_invariant hp64k_reset_state 0x2000 1 false
  exact ⟨h.2.2.2.2.2.2.2.2.2.2.2.2.1 (by decide), h.1⟩

/-- C10: konmedal68k IRQ enable gating: the scanline callback asserts
M68K_IRQ_3 only at scanline 240 with control bit 3 set and M68K_IRQ_4
only at scanline 255 with control bit 4 set (otherwise the lines are left
as they were), and any control write with bit 3 (resp. bit 4) clear
immediately clears the corresponding line. -/
theorem C10_scanline_irq_gating :
    ∀ (st : KonState) (p d : Nat),
      ((scanline p st).irq3 = if p = 240 ∧ st.control &&& 0x8 ≠ 0 then true else st.irq3)
      ∧ ((scanline p st).irq4 = if p = 255 ∧ st.control &&& 0x10 ≠ 0 then true else st.irq4)
      ∧ (d &&& 0x8 = 0 → (control_w d st).irq3 = false)
      ∧ (d &&& 0x10 = 0 → (control_w d st).irq4 = false)
      ∧ ((control_w d st).control = d &&& 0xff) := by
  intro st p d
  refine ⟨?_, ?_, ?_, ?_, ?_⟩
  · by_cases h1 : p = 240 <;> by_cases h2 : st.control &&& 0x8 = 0 <;>
      simp [scanline, h1, h2] <;> split <;> rfl
  · by_cases h1 : p = 255 <;> by_cases h2 : st.control &&& 0x10 = 0 <;>
      simp [scanline, h1, h2] <;> split <;> rfl
  · intro h
    simp only [control_w]
    split <;> rfl
  · intro h
    simp only [control_w]
    rw [if_pos h]
  · by_cases h1 : d &&& 0x8 = 0 <;> by_cases h2 : d &&& 0x10 = 0 <;>
      simp [control_w, h1, h2]

/-- Witness for C10 at a concrete input: a control write of 0 (both
enable bits clear) with both lines previously asserted clears both. -/
theorem C10_scanline_irq_gating_witness :
    (control_w 0 ⟨0xff, true, true⟩).irq3 = false
    ∧ (control_w 0 ⟨0xff, true, true⟩).irq4 = false := by
  have h := C10_scanline_irq_gating ⟨0xff, true, true⟩ 0 0
  exact ⟨h.2.2.1 (by decide), h.2.2.2.1 (by decide)⟩
